import Mathlib

/-!
Verification of the representative-station selection and period-aggregation
pipeline (src/data/NOAA/rep_station.py).

The development shallowly embeds the pipeline's pure decision logic:
calendar dates and the pandas period bucketing, the year-slicing of a
station's valid range, the retry loop of the API request helper, the
representative-station selector, the daily-to-period aggregator, and the
per-region write sequence of the driver.  Numeric observation values are
modelled as rationals, calendar dates as (year, month, day) triples, and
pandas timestamps as day numbers.
-/

section Dates

/-- A calendar date (proleptic Gregorian), as stored in station metadata
and observation rows. -/
structure Date where
  y : Nat
  m : Nat
  d : Nat
deriving DecidableEq, Repr

/-- Day number of a calendar date: days since 0000-03-01, valid for CE
years.  This is the standard civil-calendar day count used to embed
pandas timestamps, which order and subtract like day numbers. -/
def toDays (dt : Date) : Nat :=
  let y := if dt.m ≤ 2 then dt.y - 1 else dt.y
  let m := if dt.m ≤ 2 then dt.m + 9 else dt.m - 3
  y * 365 + y / 4 - y / 100 + y / 400 + (153 * m + 2) / 5 + dt.d - 1

/-- Weekday of a day number, Monday = 0 .. Sunday = 6.
(Day 0 = 0000-03-01 is a Wednesday, hence the +2.) -/
def weekdayMon0 (n : Nat) : Nat := (n + 2) % 7

/-- Start (as a day number) of the pandas "W-MON" weekly period containing
day `n`.  A "W-MON" period is a week that ENDS on Monday, so its first day
is the Tuesday on or before `n`; `to_period("W-MON").start_time` of
rep_station.py line 203 returns exactly this day. -/
def wmonStart (n : Nat) : Nat := n - ((weekdayMon0 n + 6) % 7)

/-- Lexicographic order on (year, month, day); agrees with chronological
order on valid calendar dates (pandas date comparison). -/
def dateLE (a b : Date) : Bool :=
  if a.y ≠ b.y then decide (a.y < b.y)
  else if a.m ≠ b.m then decide (a.m < b.m)
  else decide (a.d ≤ b.d)

/-- Python max on two dates. -/
def dateMax (a b : Date) : Date := if dateLE a b then b else a

/-- Python min on two dates. -/
def dateMin (a b : Date) : Date := if dateLE a b then a else b

end Dates

section YearSlices

/-- rep_station.py lines 90-107: intersect [mind, maxd] with the fixed
bound [2002-01-01, 2025-12-31] and split the intersection by calendar
year.  `none` models a missing (falsy) date. -/
def year_slices (mind maxd : Option Date) : List (Date × Date) :=
  match mind, maxd with
  | some mind, some maxd =>
    if ¬ dateLE mind maxd then []
    else
      let start := dateMax mind ⟨2002, 1, 1⟩
      let e := dateMin maxd ⟨2025, 12, 31⟩
      if ¬ dateLE start e then []
      else
        (List.range (e.y - start.y + 1)).map (fun i =>
          let y := start.y + i
          (if y = start.y then start else ⟨y, 1, 1⟩,
           if y = e.y then e else ⟨y, 12, 31⟩))
  | _, _ => []

/-- Modelled from the spec's words (section 4.4): the station's valid range
is intersected with the fixed historical bound; an empty or inverted
intersection yields the empty sequence; otherwise the intersection is
partitioned by calendar year, each slice covering Jan 1 - Dec 31 of its
year except that the first slice starts at the intersected start date and
the last slice ends at the intersected end date, in year order. -/
def year_slices_spec (mind maxd : Option Date) : List (Date × Date) :=
  match mind, maxd with
  | some mind, some maxd =>
    let lo := dateMax mind ⟨2002, 1, 1⟩
    let hi := dateMin maxd ⟨2025, 12, 31⟩
    if dateLE mind maxd ∧ dateLE lo hi then
      ((List.range (hi.y + 1)).drop lo.y).map (fun y =>
        (if y = lo.y then lo else ⟨y, 1, 1⟩,
         if y = hi.y then hi else ⟨y, 12, 31⟩))
    else []
  | _, _ => []

end YearSlices

section Aggregator

/-- A daily observation row, as returned by the observation endpoint:
(calendar date, variable code, numeric value).  The station and quality
attribute columns play no role in the aggregation and are omitted. -/
structure Obs where
  date : Date
  datatype : String
  value : ℚ
deriving DecidableEq, Repr

/-- rep_station.py line 210: the fixed "accumulate" variable set. -/
def sum_vars : List String := ["PRCP", "SNOW"]

/-- Whether a variable is reduced by sum (member of the accumulate set). -/
def isSumVar (v : String) : Bool := sum_vars.contains v

/-- rep_station.py lines 201-208: the period bucket key of an observation
date.  For "weekly" it is the first day of the observation's pandas
"W-MON" period; otherwise it is the first day of the observation's
calendar month. -/
def periodStart (freq : String) (dt : Date) : Nat :=
  if freq = "weekly" then wmonStart (toDays dt)
  else toDays ⟨dt.y, dt.m, 1⟩

/-- rep_station.py line 195: restrict the daily rows to the requested
variable codes. -/
def filteredObs (daily : List Obs) (wanted : List String) : List Obs :=
  daily.filter (fun o => wanted.contains o.datatype)

/-- The filtered rows keyed by period bucket:
(period key, variable code, value).  Models the frame `d` of
rep_station.py after the period_start column is added (lines 199-208). -/
def keyedRows (daily : List Obs) (wanted : List String) (freq : String) :
    List (Nat × String × ℚ) :=
  (filteredObs daily wanted).map (fun o => (periodStart freq o.date, o.datatype, o.value))

/-- rep_station.py line 230: the requested variables that appear as
columns of the wide table, in requested order.  A pivot column exists
exactly when at least one filtered row carries that variable. -/
def presentVars (daily : List Obs) (wanted : List String) : List String :=
  wanted.filter (fun v => (filteredObs daily wanted).any (fun o => o.datatype = v))

/-- The cell of the wide table at (period key, variable): the groupby-sum
for accumulate variables and the groupby-mean for the others
(rep_station.py lines 214-222); `none` models the NaN left by the pivot /
outer join when the (key, variable) group is empty. -/
def cellVal (daily : List Obs) (wanted : List String) (freq : String)
    (k : Nat) (v : String) : Option ℚ :=
  let vs := ((keyedRows daily wanted freq).filter
      (fun r => r.1 = k && r.2.1 = v)).map (fun r => r.2.2)
  if vs = [] then none
  else if isSumVar v then some vs.sum
  else some (vs.sum / vs.length)

/-- The row index of the wide table: the distinct period keys, sorted
ascending.  The outer join of the sum and mean pivots (line 227) indexes
the result by the union of the two groups' keys, which is exactly the set
of keys of the filtered rows; pandas keeps the index sorted. -/
def tableKeys (daily : List Obs) (wanted : List String) (freq : String) : List Nat :=
  List.insertionSort (· ≤ ·) (((keyedRows daily wanted freq).map (fun r => r.1)).dedup)

/-- rep_station.py lines 182-231: aggregate a single station's daily rows
to a wide period table.  Each output row is a period key paired with one
optional value per present variable (in requested order); an empty input
or no matching variables yields the empty table.  (The guard of line 224
cannot fire when the filtered frame is non-empty, since every filtered
row belongs to the sum group or the mean group.) -/
def daily_to_period_station (daily : List Obs) (wanted : List String)
    (freq : String) : List (Nat × List (String × Option ℚ)) :=
  if daily = [] then []
  else if filteredObs daily wanted = [] then []
  else (tableKeys daily wanted freq).map (fun k =>
    (k, (presentVars daily wanted).map (fun v => (v, cellVal daily wanted freq k v))))

/-- The daily values contributing to bucket `k` for variable `v`: the
values of the requested-variable rows whose date falls in that period
bucket.  This is the reference quantity the aggregation claims compare
against. -/
def bucketVals (daily : List Obs) (wanted : List String) (freq : String)
    (k : Nat) (v : String) : List ℚ :=
  (((filteredObs daily wanted).filter
      (fun o => periodStart freq o.date = k && o.datatype = v)).map (fun o => o.value))

/-- Look up the cell of a produced period table at (period key, variable):
`none` when no row has that key or the row has no such column, otherwise
`some` of the (possibly empty) stored cell. -/
def tblCell (tbl : List (Nat × List (String × Option ℚ))) (k : Nat) (v : String) :
    Option (Option ℚ) :=
  match tbl.find? (fun r => r.1 = k) with
  | none => none
  | some r => r.2.lookup v

/-- Whether the sum-reduced group (when `isSum` is true) or the
mean-reduced group (when false) contains a row bucketed at key `k`. -/
def groupHas (daily : List Obs) (wanted : List String) (freq : String)
    (isSum : Bool) (k : Nat) : Bool :=
  (keyedRows daily wanted freq).any (fun r => r.1 = k && (isSumVar r.2.1 = isSum))

end Aggregator

section Selector

/-- A candidate station record after the numeric coercions of
rep_station.py lines 130-133: coverage fraction (none models NaN) and
valid-range endpoints as day numbers (none models NaT). -/
structure Station where
  id : String
  datacoverage : Option ℚ
  mindate : Option Nat
  maxdate : Option Nat
deriving DecidableEq, Repr

/-- rep_station.py line 134: span of the valid range in days; a missing
endpoint makes the difference NaN, filled with -1. -/
def span_days (s : Station) : Int :=
  match s.mindate, s.maxdate with
  | some a, some b => (b : Int) - (a : Int)
  | _, _ => -1

/-- rep_station.py line 135: the preferred-network flag,
str.startswith("GHCND:USW") expressed as the equivalent test that the
identifier's character sequence begins with the characters of
"GHCND:USW". -/
def is_usw (s : Station) : Bool := "GHCND:USW".toList.isPrefixOf s.id.toList

/-- rep_station.py line 143: the coverage tolerance. -/
def tol : ℚ := 1 / 1000000

/-- rep_station.py line 153: the near-complete-coverage test
(datacoverage >= 1.0 - tol); NaN coverage fails the comparison. -/
def covNearOne (s : Station) : Bool :=
  match s.datacoverage with
  | some c => decide (1 - tol ≤ c)
  | none => false

/-- rep_station.py line 163: the Series.between test on coverage; NaN
coverage fails it. -/
def covBetween (s : Station) (lo hi : ℚ) : Bool :=
  match s.datacoverage with
  | some c => decide (lo ≤ c ∧ c ≤ hi)
  | none => false

/-- rep_station.py line 158: max of the defined coverages
(max with skipna; none models the all-NaN case). -/
def maxCov (l : List Station) : Option ℚ :=
  match l.filterMap (fun s => s.datacoverage) with
  | [] => none
  | q :: qs => some (qs.foldl max q)

/-- The sort key of rep_station.py lines 148-149, encoded so that the
sorted order (is_usw desc, span_days desc, mindate asc with missing
last, id asc) is exactly ascending lexicographic order of the key. -/
def mkey (s : Station) : Lex (Nat × Lex (Int × Lex (Nat × Lex (Nat × String)))) :=
  toLex ((if is_usw s then 0 else 1),
    toLex (-(span_days s),
      toLex ((if s.mindate = none then 1 else 0),
        toLex (s.mindate.getD 0, s.id))))

/-- rep_station.py lines 145-150 (_select): sort by the four-component
key and keep the first row, i.e. return a minimum-key element of the
pool (ids are unique after catalog deduplication, so the comparator is a
total order and the minimum is the sorted head). -/
def selectFirst (l : List Station) : Option Station :=
  match l with
  | [] => none
  | x :: xs => some (xs.foldl (fun acc s => if mkey s < mkey acc then s else acc) x)

/-- rep_station.py lines 137-141: the candidate pool, restricted to
preferred-network stations when the flag is set and at least one exists. -/
def candPool (stations : List Station) (prefer_usw : Bool) : List Station :=
  if prefer_usw && stations.any is_usw then stations.filter is_usw else stations

/-- rep_station.py lines 125-164: pick the representative station.
Empty pool returns none; otherwise select from the near-complete-coverage
subset if non-empty, else from the subset within tolerance of the maximum
coverage, else (all coverages NaN) from the whole candidate pool. -/
def pick_representative_station (stations : List Station)
    (prefer_usw : Bool) : Option Station :=
  if stations = [] then none
  else
    let cand := candPool stations prefer_usw
    let cov1 := cand.filter covNearOne
    if cov1 ≠ [] then selectFirst cov1
    else
      match maxCov cand with
      | none => selectFirst cand
      | some m => selectFirst (cand.filter (fun s => covBetween s (m - tol) (m + tol)))

/-- The two stations of the C2 witness pool (coverages 1 and 0). -/
def stFull : Station := ⟨"GHCND:USC00000001", some 1, some 100, some 200⟩

/-- See stFull. -/
def stPoor : Station := ⟨"GHCND:USC00000002", some 0, some 100, some 200⟩

/-- The two stations of the C4 counterexample: equal coverage, equal
preferred-network flag and equal span, but different earliest start
dates. -/
def stA : Station := ⟨"GHCND:A", some 1, some 1000, some 2000⟩

/-- See stA: same coverage, flag and span, earlier start date, lexically
larger identifier. -/
def stZ : Station := ⟨"GHCND:Z", some 1, some 500, some 1500⟩

/-- The station of the C8 counterexample region. -/
def st0 : Station := ⟨"GHCND:USC00000003", none, some 100, some 200⟩

end Selector

section Retry

/-- The outcome of one attempt of the request loop of rep_station.py
lines 61-85: a parsed JSON body (abstracted to a number), a no-content /
empty body, a 429 rate-limit status, a retryable 5xx status, another
error status surfaced by raise_for_status, a JSON parse failure, or a
transport-level timeout / connection error. -/
inductive Outcome where
  | ok (v : Nat)
  | noContent
  | status429
  | server5xx (code : Nat)
  | clientErr (code : Nat)
  | parseFail (msg : Nat)
  | transport (msg : Nat)
deriving DecidableEq, Repr

/-- The exceptions req_json can raise. -/
inductive ReqErr where
  | http5xx (code : Nat)
  | httpClient (code : Nat)
  | parse (msg : Nat)
  | transportE (msg : Nat)
  | runtimeUnknown
deriving DecidableEq, Repr

/-- Whether an attempt outcome is a failure (anything that does not
return a body). -/
def isFailureOutcome : Outcome → Bool
  | .ok _ => false
  | .noContent => false
  | _ => true

/-- The exception an attempt outcome raises or stores in last_exc.
A 429 response triggers a retry without storing any exception. -/
def failureOf : Outcome → Option ReqErr
  | .ok _ => none
  | .noContent => none
  | .status429 => none
  | .server5xx c => some (.http5xx c)
  | .clientErr c => some (.httpClient c)
  | .parseFail m => some (.parse m)
  | .transport m => some (.transportE m)

/-- The retry loop of rep_station.py lines 60-88, one list element per
attempt (the list length is the max_retry ceiling) with the stored
last_exc threaded through.  429 retries without recording an exception;
5xx records and retries; a parse failure, transport error or other HTTP
error retries if attempts remain and otherwise raises itself; an
exhausted loop raises last_exc when set and a fresh RuntimeError
otherwise. -/
def reqJsonAux : List Outcome → Option ReqErr → Except ReqErr (Option Nat)
  | [], some e => .error e
  | [], none => .error .runtimeUnknown
  | .ok v :: _, _ => .ok (some v)
  | .noContent :: _, _ => .ok none
  | .status429 :: rest, last => reqJsonAux rest last
  | .server5xx c :: rest, _ => reqJsonAux rest (some (.http5xx c))
  | .parseFail m :: rest, _ =>
      if rest.isEmpty then .error (.parse m) else reqJsonAux rest (some (.parse m))
  | .transport m :: rest, _ =>
      if rest.isEmpty then .error (.transportE m) else reqJsonAux rest (some (.transportE m))
  | .clientErr c :: rest, _ =>
      if rest.isEmpty then .error (.httpClient c) else reqJsonAux rest (some (.httpClient c))

/-- rep_station.py req_json, as a function of the per-attempt outcomes
(one per attempt up to the retry ceiling; endpoint path and parameters do
not influence the control flow). -/
def req_json (outcomes : List Outcome) : Except ReqErr (Option Nat) :=
  reqJsonAux outcomes none

/-- The last exception stored after a sequence of attempts. -/
def lastStored (os : List Outcome) : Option ReqErr :=
  os.foldl (fun acc o => match failureOf o with | some e => some e | none => acc) none

end Retry

section RegionDriver

/-- A file written into a region's output directory by the driver loop of
rep_station.py lines 260-341. -/
inductive FWrite where
  | stationsMeta
  | selectedStation
  | rawPart (idx : Nat)
  | aggregate
deriving DecidableEq, Repr

/-- The per-region write sequence of rep_station.py main (lines 267-341),
with the outside world abstracted: `stationsRes` is the station-listing
result (none = the listing raised), `fetchRes` has one entry per year
slice (none = that year's fetch raised and was skipped).  Follows the
default non-resume path: stations_meta.csv is written right after the
catalog (line 277), selected_station.csv right after selection (line
286), per-year raw parts during the fetch loop when save_raw is set
(lines 307-313), and the period-aggregate file last, only when daily data
exists and the aggregation is non-empty (lines 322-340). -/
def processRegion (stationsRes : Option (List Station))
    (fetchRes : List (Option (List Obs))) (prefer_usw save_raw : Bool)
    (wanted : List String) (freq : String) : List FWrite :=
  match stationsRes with
  | none => []
  | some stations =>
    if stations = [] then []
    else
      FWrite.stationsMeta ::
      match pick_representative_station stations prefer_usw with
      | none => []
      | some _ =>
        FWrite.selectedStation ::
        ((if save_raw then
            fetchRes.enum.filterMap (fun p => p.2.map (fun _ => FWrite.rawPart p.1))
          else []) ++
         (let daily := (fetchRes.filterMap id).flatten
          if daily = [] then []
          else if daily_to_period_station daily wanted freq = [] then []
          else [FWrite.aggregate]))

end RegionDriver

section SelectorLemmas

lemma foldlMin_mem (x : Station) (xs : List Station) :
    xs.foldl (fun acc s => if mkey s < mkey acc then s else acc) x ∈ x :: xs := by
  induction xs generalizing x with
  | nil => simp
  | cons y ys ih =>
    simp only [List.foldl_cons]
    have h := ih (if mkey y < mkey x then y else x)
    rcases List.mem_cons.mp h with h' | h'
    · rw [h']
      split <;> simp
    · simp [h']

lemma foldlMin_le (x : Station) (xs : List Station) :
    ∀ s ∈ x :: xs,
      mkey (xs.foldl (fun acc s => if mkey s < mkey acc then s else acc) x) ≤ mkey s := by
  induction xs generalizing x with
  | nil => intro s hs; simp at hs; simp [hs]
  | cons y ys ih =>
    intro s hs
    simp only [List.foldl_cons]
    by_cases hc : mkey y < mkey x
    · rw [if_pos hc]
      rcases List.mem_cons.mp hs with h' | h'
      · rw [h']
        exact le_trans (ih y y (List.mem_cons_self y ys)) (le_of_lt hc)
      · rcases List.mem_cons.mp h' with h'' | h''
        · rw [h'']
          exact ih y y (List.mem_cons_self y ys)
        · exact ih y s (List.mem_cons_of_mem y h'')
    · rw [if_neg hc]
      rcases List.mem_cons.mp hs with h' | h'
      · rw [h']
        exact ih x x (List.mem_cons_self x ys)
      · rcases List.mem_cons.mp h' with h'' | h''
        · rw [h'']
          exact le_trans (ih x x (List.mem_cons_self x ys)) (le_of_not_lt hc)
        · exact ih x s (List.mem_cons_of_mem x h'')

lemma selectFirst_mem {l : List Station} {w : Station}
    (h : selectFirst l = some w) : w ∈ l := by
  cases l with
  | nil => simp [selectFirst] at h
  | cons x xs =>
    simp only [selectFirst, Option.some.injEq] at h
    exact h ▸ foldlMin_mem x xs

lemma selectFirst_isSome {l : List Station} (h : l ≠ []) :
    ∃ w, selectFirst l = some w := by
  cases l with
  | nil => exact absurd rfl h
  | cons x xs => exact ⟨_, rfl⟩

lemma selectFirst_min {l : List Station} {w : Station}
    (h : selectFirst l = some w) : ∀ s ∈ l, mkey w ≤ mkey s := by
  cases l with
  | nil => simp [selectFirst] at h
  | cons x xs =>
    simp only [selectFirst, Option.some.injEq] at h
    exact h ▸ foldlMin_le x xs

lemma foldl_max_mem (q : ℚ) (qs : List ℚ) : qs.foldl max q ∈ q :: qs := by
  induction qs generalizing q with
  | nil => simp
  | cons y ys ih =>
    simp only [List.foldl_cons]
    have h := ih (max q y)
    rcases List.mem_cons.mp h with h' | h'
    · rw [h']
      rcases max_choice q y with h'' | h'' <;> simp [h'']
    · simp [h']

lemma maxCov_mem {l : List Station} {m : ℚ} (h : maxCov l = some m) :
    ∃ s ∈ l, s.datacoverage = some m := by
  unfold maxCov at h
  split at h
  · exact absurd h (by simp)
  · next q qs heq =>
    have h' : qs.foldl max q = m := Option.some.inj h
    have hm : m ∈ l.filterMap (fun s => s.datacoverage) := by
      rw [heq]
      exact h' ▸ foldl_max_mem q qs
    obtain ⟨s, hs, hcov⟩ := List.mem_filterMap.mp hm
    exact ⟨s, hs, hcov⟩

lemma candPool_subset (stations : List Station) (pu : Bool) :
    ∀ s ∈ candPool stations pu, s ∈ stations := by
  intro s hs
  unfold candPool at hs
  split at hs
  · exact List.mem_of_mem_filter hs
  · exact hs

lemma candPool_ne_nil {stations : List Station} (h : stations ≠ []) (pu : Bool) :
    candPool stations pu ≠ [] := by
  unfold candPool
  split
  · next hc =>
    obtain ⟨s, hs, husw⟩ := List.any_eq_true.mp (Bool.and_elim_right hc)
    intro he
    exact absurd (List.mem_filter.mpr ⟨hs, husw⟩) (he ▸ List.not_mem_nil s)
  · exact h

end SelectorLemmas

/-- C10: for every non-empty station pool, the selector returns exactly one
station, which belongs to the input pool, so its identifier is the
identifier of some station in the pool — even when every candidate's
coverage is undefined the all-NaN branch still selects from the full
candidate pool. -/
theorem C10_pick_total (stations : List Station) (pu : Bool)
    (h : stations ≠ []) :
    ∃ w, pick_representative_station stations pu = some w ∧ w ∈ stations ∧
      w.id ∈ stations.map Station.id := by
  have hcand : candPool stations pu ≠ [] := candPool_ne_nil h pu
  have hsub := candPool_subset stations pu
  unfold pick_representative_station
  rw [if_neg h]
  by_cases h1 : (candPool stations pu).filter covNearOne ≠ []
  · obtain ⟨w, hw⟩ := selectFirst_isSome h1
    have hwm := selectFirst_mem hw
    have hws : w ∈ stations := hsub w (List.mem_of_mem_filter hwm)
    refine ⟨w, ?_, hws, List.mem_map.mpr ⟨w, hws, rfl⟩⟩
    rw [if_pos h1, hw]
  · rw [if_neg h1]
    cases hmc : maxCov (candPool stations pu) with
    | none =>
      obtain ⟨w, hw⟩ := selectFirst_isSome hcand
      have hws : w ∈ stations := hsub w (selectFirst_mem hw)
      exact ⟨w, hw, hws, List.mem_map.mpr ⟨w, hws, rfl⟩⟩
    | some m =>
      obtain ⟨s, hs, hcov⟩ := maxCov_mem hmc
      have hbet : covBetween s (m - tol) (m + tol) = true := by
        unfold covBetween
        rw [hcov]
        have : (0 : ℚ) ≤ tol := by norm_num [tol]
        exact decide_eq_true ⟨by linarith, by linarith⟩
      have hne : (candPool stations pu).filter
          (fun s => covBetween s (m - tol) (m + tol)) ≠ [] := by
        intro he
        exact absurd (List.mem_filter.mpr ⟨hs, hbet⟩) (he ▸ List.not_mem_nil s)
      obtain ⟨w, hw⟩ := selectFirst_isSome hne
      have hws : w ∈ stations := hsub w (List.mem_of_mem_filter (selectFirst_mem hw))
      exact ⟨w, hw, hws, List.mem_map.mpr ⟨w, hws, rfl⟩⟩

/-- C2: whenever some candidate (a member of the candidate pool, i.e. the
pool after the optional preferred-network restriction of the selector's
first step) has coverage within 1e-6 of 1.0, the winner is drawn from the
subset of such near-complete-coverage candidates, never from a candidate
with lower coverage; coverage fractions lie in [0,1] by the data model. -/
theorem C2_near_complete (stations : List Station) (pu : Bool)
    (hbound : ∀ s ∈ stations, ∀ c, s.datacoverage = some c → 0 ≤ c ∧ c ≤ 1)
    (hnear : ∃ s ∈ candPool stations pu, covNearOne s = true) :
    ∃ w, pick_representative_station stations pu = some w ∧
      w ∈ candPool stations pu ∧ covNearOne w = true ∧
      ∃ c, w.datacoverage = some c ∧ 1 - tol ≤ c ∧ c ≤ 1 := by
  obtain ⟨s, hs, hsc⟩ := hnear
  have hne : stations ≠ [] := by
    intro he
    subst he
    simp [candPool] at hs
  have h1 : (candPool stations pu).filter covNearOne ≠ [] := by
    intro he
    exact absurd (List.mem_filter.mpr ⟨hs, hsc⟩) (he ▸ List.not_mem_nil s)
  obtain ⟨w, hw⟩ := selectFirst_isSome h1
  have hwm := selectFirst_mem hw
  have hwc : w ∈ candPool stations pu := List.mem_of_mem_filter hwm
  have hwn : covNearOne w = true := List.of_mem_filter hwm
  obtain ⟨c, hcov, hc1⟩ : ∃ c, w.datacoverage = some c ∧ 1 - tol ≤ c := by
    unfold covNearOne at hwn
    split at hwn
    · next c heq => exact ⟨c, heq, of_decide_eq_true hwn⟩
    · exact absurd hwn (by simp)
  refine ⟨w, ?_, hwc, hwn, c, hcov,
    hc1, (hbound w (candPool_subset stations pu w hwc) c hcov).2⟩
  unfold pick_representative_station
  rw [if_neg hne, if_pos h1, hw]

/-- Witness for C2 at a concrete two-station pool (coverages 1 and 0). -/
theorem C2_near_complete_witness :
    (∀ s ∈ ([stFull, stPoor] : List Station),
      ∀ c, s.datacoverage = some c → 0 ≤ c ∧ c ≤ 1) ∧
    (∃ s ∈ candPool [stFull, stPoor] false, covNearOne s = true) ∧
    ∃ w, pick_representative_station [stFull, stPoor] false = some w ∧
      w ∈ candPool [stFull, stPoor] false ∧
      covNearOne w = true ∧
      ∃ c, w.datacoverage = some c ∧ 1 - tol ≤ c ∧ c ≤ 1 := by
  have hbound : ∀ s ∈ ([stFull, stPoor] : List Station),
      ∀ c, s.datacoverage = some c → 0 ≤ c ∧ c ≤ 1 := by
    intro s hs c hc
    rcases List.mem_cons.mp hs with h | h
    · rw [h] at hc
      obtain rfl := Option.some.inj hc
      norm_num
    · rcases List.mem_cons.mp h with h' | h'
      · rw [h'] at hc
        obtain rfl := Option.some.inj hc
        norm_num
      · simp at h'
  have hcovF : covNearOne stFull = true := by
    simp only [covNearOne, stFull, decide_eq_true_eq, tol]
    norm_num
  have hnear : ∃ s ∈ candPool [stFull, stPoor] false, covNearOne s = true := by
    refine ⟨stFull, ?_, hcovF⟩
    simp [candPool]
  exact ⟨hbound, hnear, C2_near_complete _ false hbound hnear⟩

/-- C4 counterexample: two candidates with equal coverage, equal
preferred-network flag and equal span in days, where the selector picks
the one with the lexically LARGER identifier, because the earliest start
date is compared before the identifier. -/
theorem C4_counterexample :
    pick_representative_station [stA, stZ] false = some stZ ∧
    stA.datacoverage = stZ.datacoverage ∧ is_usw stA = is_usw stZ ∧
    span_days stA = span_days stZ ∧ stA.id < stZ.id ∧ stA.id ≠ stZ.id := by
  have hA : covNearOne stA = true := by
    simp only [covNearOne, stA, decide_eq_true_eq, tol]
    norm_num
  have hZ : covNearOne stZ = true := by
    simp only [covNearOne, stZ, decide_eq_true_eq, tol]
    norm_num
  have hpick : pick_representative_station [stA, stZ] false = some stZ := by
    unfold pick_representative_station
    rw [if_neg (by decide : ¬([stA, stZ] : List Station) = [])]
    have hcp : candPool [stA, stZ] false = [stA, stZ] := by
      simp [candPool]
    have hfil : ([stA, stZ] : List Station).filter covNearOne = [stA, stZ] := by
      simp [List.filter, hA, hZ]
    simp only [hcp, hfil]
    rw [if_pos (by decide : ([stA, stZ] : List Station) ≠ [])]
    decide
  refine ⟨hpick, by decide, by decide, by decide, ?_, by decide⟩
  rw [String.lt_iff_toList_lt]
  decide

/-- C4 (amended): the selection within a filtered subset returns the
minimum under the sort order descending by (preferred-network flag, span
days) then ascending by (earliest start date, identifier); hence for two
candidates of the subset that also tie on the earliest start date (in
addition to flag and span), the lexically smaller identifier wins. -/
theorem C4_select_tiebreak (l : List Station) (w : Station)
    (hw : selectFirst l = some w) :
    (∀ s ∈ l, mkey w ≤ mkey s) ∧
    (∀ a ∈ l, is_usw a = is_usw w → span_days a = span_days w →
      a.mindate = w.mindate → w.id ≤ a.id) := by
  refine ⟨selectFirst_min hw, ?_⟩
  intro a ha h1 h2 h3
  have hle := selectFirst_min hw a ha
  simp only [mkey, h1, h2, h3, Prod.Lex.le_iff] at hle
  simpa [lt_irrefl] using hle

/-- Witness for C4's amended theorem on the concrete two-station subset. -/
theorem C4_select_tiebreak_witness :
    selectFirst [stA, stZ] = some stZ ∧
    ((∀ s ∈ [stA, stZ], mkey stZ ≤ mkey s) ∧
     (∀ a ∈ [stA, stZ], is_usw a = is_usw stZ → span_days a = span_days stZ →
       a.mindate = stZ.mindate → stZ.id ≤ a.id)) :=
  ⟨by decide, C4_select_tiebreak [stA, stZ] stZ (by decide)⟩

section YearSliceLemmas

lemma dateLE_year {a b : Date} (h : dateLE a b = true) : a.y ≤ b.y := by
  unfold dateLE at h
  split at h
  · simp at h
    omega
  · omega

lemma range_drop (lo n : Nat) (h : lo ≤ n) :
    (List.range n).drop lo = (List.range (n - lo)).map (lo + ·) := by
  have : n = lo + (n - lo) := by omega
  rw [this, List.range_add]
  simp [List.drop_left']

end YearSliceLemmas

/-- C5: year_slices computes exactly the by-calendar-year partition of the
intersection of [mindate, maxdate] with the fixed bound
[2002-01-01, 2025-12-31] described by the spec (first slice starting at
the intersected start, last ending at the intersected end, full years in
between, in year order, empty for an empty or inverted intersection);
in particular the range 2001-06-01 .. 2026-03-01 yields exactly the 24
full-year slices 2002 through 2025. -/
theorem C5_year_slices_partition :
    (∀ mind maxd, year_slices mind maxd = year_slices_spec mind maxd) ∧
    year_slices (some ⟨2001, 6, 1⟩) (some ⟨2026, 3, 1⟩) =
      (List.range 24).map (fun i => (⟨2002 + i, 1, 1⟩, ⟨2002 + i, 12, 31⟩)) := by
  constructor
  · intro mind maxd
    cases mind with
    | none => rfl
    | some a =>
      cases maxd with
      | none => rfl
      | some b =>
        unfold year_slices year_slices_spec
        by_cases h1 : dateLE a b = true
        · simp only [h1, not_true, if_false, reduceIte, true_and]
          by_cases h2 : dateLE (dateMax a ⟨2002,1,1⟩) (dateMin b ⟨2025,12,31⟩) = true
          · have hy : (dateMax a ⟨2002,1,1⟩).y ≤ (dateMin b ⟨2025,12,31⟩).y := dateLE_year h2
            simp only [h2, not_true, reduceIte]
            rw [range_drop _ _ (by omega), List.map_map]
            have hn : (dateMin b ⟨2025,12,31⟩).y + 1 - (dateMax a ⟨2002,1,1⟩).y
                = (dateMin b ⟨2025,12,31⟩).y - (dateMax a ⟨2002,1,1⟩).y + 1 := by omega
            rw [hn]
            rfl
          · simp [h2]
        · simp [h1]
  · decide

section RetryLemmas

lemma reqJsonAux_all_fail (os : List Outcome) :
    ∀ last : Option ReqErr, (∀ o ∈ os, isFailureOutcome o = true) →
      reqJsonAux os last =
        .error ((os.foldl (fun acc o =>
          match failureOf o with | some e => some e | none => acc) last).getD
            ReqErr.runtimeUnknown) := by
  induction os with
  | nil =>
    intro last _
    cases last with
    | none => rfl
    | some e => rfl
  | cons o rest ih =>
    intro last h
    have hrest : ∀ o ∈ rest, isFailureOutcome o = true :=
      fun o ho => h o (List.mem_cons_of_mem _ ho)
    cases o with
    | ok v => exact absurd (h _ (List.mem_cons_self _ _)) (by simp [isFailureOutcome])
    | noContent => exact absurd (h _ (List.mem_cons_self _ _)) (by simp [isFailureOutcome])
    | status429 => simpa [reqJsonAux, List.foldl_cons, failureOf] using ih last hrest
    | server5xx c => simpa [reqJsonAux, List.foldl_cons, failureOf] using ih _ hrest
    | parseFail m =>
      cases rest with
      | nil => rfl
      | cons r rs => simpa [reqJsonAux, List.foldl_cons, failureOf] using ih _ hrest
    | transport m =>
      cases rest with
      | nil => rfl
      | cons r rs => simpa [reqJsonAux, List.foldl_cons, failureOf] using ih _ hrest
    | clientErr c =>
      cases rest with
      | nil => rfl
      | cons r rs => simpa [reqJsonAux, List.foldl_cons, failureOf] using ih _ hrest

end RetryLemmas

/-- C3 counterexample: a run whose three attempts (the full retry ceiling)
are all rate-limit responses exhausts the retries on failures, yet the
raised error is a fresh RuntimeError that is not any of the encountered
failures — a 429 attempt stores no exception, so there is nothing to
re-raise. -/
theorem C3_counterexample :
    req_json [Outcome.status429, Outcome.status429, Outcome.status429] =
      .error ReqErr.runtimeUnknown ∧
    (∀ o ∈ [Outcome.status429, Outcome.status429, Outcome.status429],
      isFailureOutcome o = true ∧ failureOf o ≠ some ReqErr.runtimeUnknown) := by
  constructor
  · rfl
  · decide

/-- C3 (amended): when every attempt up to the retry ceiling fails, the
request helper re-raises the last exception-bearing failure (5xx status,
other HTTP error status, transport error or parse failure) when at least
one occurred; if every attempt was a rate-limit response — which stores
no exception — a generic RuntimeError is raised instead. -/
theorem C3_retry_exhaustion (os : List Outcome)
    (h : ∀ o ∈ os, isFailureOutcome o = true) :
    req_json os = .error ((lastStored os).getD ReqErr.runtimeUnknown) :=
  reqJsonAux_all_fail os none h

/-- Witness for C3's amended theorem: a transport failure followed by a
rate-limit response and a final 5xx — the 5xx, the last stored exception,
is re-raised. -/
theorem C3_retry_exhaustion_witness :
    (∀ o ∈ [Outcome.transport 7, Outcome.status429, Outcome.server5xx 503],
      isFailureOutcome o = true) ∧
    req_json [Outcome.transport 7, Outcome.status429, Outcome.server5xx 503] =
      .error ((lastStored [Outcome.transport 7, Outcome.status429,
        Outcome.server5xx 503]).getD ReqErr.runtimeUnknown) :=
  ⟨by decide, C3_retry_exhaustion _ (by decide)⟩

section AggregatorLemmas

lemma cellVal_vs (daily : List Obs) (wanted : List String) (freq : String)
    (k : Nat) (v : String) :
    ((keyedRows daily wanted freq).filter
        (fun r => r.1 = k && r.2.1 = v)).map (fun r => r.2.2)
      = bucketVals daily wanted freq k v := by
  unfold keyedRows bucketVals
  rw [List.filter_map, List.map_map]
  rfl

lemma mem_tableKeys {daily : List Obs} {wanted : List String} {freq : String}
    {k : Nat} :
    k ∈ tableKeys daily wanted freq ↔
      ∃ r, r ∈ keyedRows daily wanted freq ∧ r.1 = k := by
  unfold tableKeys
  rw [List.mem_insertionSort, List.mem_dedup, List.mem_map]

lemma nodup_tableKeys (daily : List Obs) (wanted : List String) (freq : String) :
    (tableKeys daily wanted freq).Nodup := by
  unfold tableKeys
  exact (List.perm_insertionSort _ _).nodup_iff.mpr (List.nodup_dedup _)

lemma find_row {keys : List Nat} {k : Nat} (hk : k ∈ keys)
    (row : Nat → List (String × Option ℚ)) :
    (keys.map (fun k => (k, row k))).find? (fun r => r.1 = k) = some (k, row k) := by
  induction keys with
  | nil => simp at hk
  | cons a as ih =>
    by_cases h : a = k
    · subst h
      simp [List.find?_cons_of_pos]
    · rcases List.mem_cons.mp hk with h' | h'
      · exact absurd h'.symm h
      · rw [List.map_cons, List.find?_cons_of_neg _ (by simp [h]), ih h']

lemma lookup_cell {vars : List String} {v : String} (hv : v ∈ vars)
    (cell : String → Option ℚ) :
    (vars.map (fun v => (v, cell v))).lookup v = some (cell v) := by
  induction vars with
  | nil => simp at hv
  | cons a as ih =>
    by_cases h : v = a
    · subst h
      simp [List.lookup]
    · rcases List.mem_cons.mp hv with h' | h'
      · exact absurd h' h
      · have hba : (v == a) = false := beq_eq_false_iff_ne.mpr h
        simp only [List.map_cons, List.lookup, hba]
        exact ih h'

lemma tblCell_eq {daily : List Obs} {wanted : List String} {freq : String}
    {k : Nat} {v : String} (hd : daily ≠ [])
    (hf : filteredObs daily wanted ≠ [])
    (hk : k ∈ tableKeys daily wanted freq) (hv : v ∈ presentVars daily wanted) :
    tblCell (daily_to_period_station daily wanted freq) k v =
      some (cellVal daily wanted freq k v) := by
  unfold tblCell daily_to_period_station
  rw [if_neg hd, if_neg hf, find_row hk]
  exact lookup_cell hv _

lemma tbl_fst_eq {daily : List Obs} {wanted : List String} {freq : String}
    (hd : daily ≠ []) (hf : filteredObs daily wanted ≠ []) :
    (daily_to_period_station daily wanted freq).map (fun r => r.1) =
      tableKeys daily wanted freq := by
  unfold daily_to_period_station
  rw [if_neg hd, if_neg hf, List.map_map]
  exact List.map_id' _

end AggregatorLemmas

/-- C6: any bucket cell of the produced period table holds the arithmetic
sum of the contributing daily values for the accumulate variables
(precipitation, snowfall) and their arithmetic mean for every other
requested variable. -/
theorem C6_sum_mean_reduction (daily : List Obs) (wanted : List String)
    (freq : String) (k : Nat) (v : String)
    (hne : bucketVals daily wanted freq k v ≠ []) :
    tblCell (daily_to_period_station daily wanted freq) k v =
      some (some (if isSumVar v then (bucketVals daily wanted freq k v).sum
        else (bucketVals daily wanted freq k v).sum /
          (bucketVals daily wanted freq k v).length)) := by
  obtain ⟨q, hq⟩ := List.exists_mem_of_ne_nil _ hne
  obtain ⟨o, ho, rfl⟩ := List.mem_map.mp hq
  have hof : o ∈ filteredObs daily wanted := List.mem_of_mem_filter ho
  have hcond := List.of_mem_filter ho
  rw [Bool.and_eq_true] at hcond
  have hk0 : periodStart freq o.date = k := of_decide_eq_true hcond.1
  have hv0 : o.datatype = v := of_decide_eq_true hcond.2
  have hd : daily ≠ [] := by
    intro he
    subst he
    simp [filteredObs] at hof
  have hf : filteredObs daily wanted ≠ [] := List.ne_nil_of_mem hof
  have hkmem : k ∈ tableKeys daily wanted freq :=
    mem_tableKeys.mpr ⟨(periodStart freq o.date, o.datatype, o.value),
      List.mem_map.mpr ⟨o, hof, rfl⟩, hk0⟩
  have hvmem : v ∈ presentVars daily wanted := by
    have hw : o.datatype ∈ wanted := by
      have := List.of_mem_filter hof
      simpa using this
    refine List.mem_filter.mpr ⟨hv0 ▸ hw, ?_⟩
    exact List.any_eq_true.mpr ⟨o, hof, by simp [hv0]⟩
  rw [tblCell_eq hd hf hkmem hvmem]
  unfold cellVal
  simp only [cellVal_vs]
  rw [if_neg hne]
  cases hsv : isSumVar v <;> simp [hsv]

/-- Witness for C6: two precipitation values in the same weekly bucket
are summed. -/
theorem C6_sum_mean_reduction_witness :
    bucketVals [⟨⟨2024, 7, 10⟩, "PRCP", 1⟩, ⟨⟨2024, 7, 11⟩, "PRCP", 2⟩]
        ["PRCP"] "weekly" (toDays ⟨2024, 7, 9⟩) "PRCP" ≠ [] ∧
    tblCell (daily_to_period_station
        [⟨⟨2024, 7, 10⟩, "PRCP", 1⟩, ⟨⟨2024, 7, 11⟩, "PRCP", 2⟩] ["PRCP"] "weekly")
        (toDays ⟨2024, 7, 9⟩) "PRCP" =
      some (some (if isSumVar "PRCP" then
          (bucketVals [⟨⟨2024, 7, 10⟩, "PRCP", 1⟩, ⟨⟨2024, 7, 11⟩, "PRCP", 2⟩]
            ["PRCP"] "weekly" (toDays ⟨2024, 7, 9⟩) "PRCP").sum
        else (bucketVals [⟨⟨2024, 7, 10⟩, "PRCP", 1⟩, ⟨⟨2024, 7, 11⟩, "PRCP", 2⟩]
            ["PRCP"] "weekly" (toDays ⟨2024, 7, 9⟩) "PRCP").sum /
          (bucketVals [⟨⟨2024, 7, 10⟩, "PRCP", 1⟩, ⟨⟨2024, 7, 11⟩, "PRCP", 2⟩]
            ["PRCP"] "weekly" (toDays ⟨2024, 7, 9⟩) "PRCP").length)) :=
  ⟨by decide, C6_sum_mean_reduction _ _ _ _ _ (by decide)⟩

/-- C7: the period table has exactly one row per distinct period key, and
a key present in only the sum-reduced group or only the mean-reduced
group still appears as that one row, with the other side's columns left
empty (the NaN of the outer join, modelled as none). -/
theorem C7_one_row_per_period (daily : List Obs) (wanted : List String)
    (freq : String) (k : Nat)
    (hk : groupHas daily wanted freq true k = true ∨
      groupHas daily wanted freq false k = true) :
    ((daily_to_period_station daily wanted freq).map (fun r => r.1)).Nodup ∧
    ((daily_to_period_station daily wanted freq).map (fun r => r.1)).count k = 1 ∧
    (groupHas daily wanted freq true k = false →
      ∀ v ∈ presentVars daily wanted, isSumVar v = true →
        tblCell (daily_to_period_station daily wanted freq) k v = some none) ∧
    (groupHas daily wanted freq false k = false →
      ∀ v ∈ presentVars daily wanted, isSumVar v = false →
        tblCell (daily_to_period_station daily wanted freq) k v = some none) := by
  obtain ⟨r, hr, hrk⟩ : ∃ r, r ∈ keyedRows daily wanted freq ∧ r.1 = k := by
    rcases hk with h | h <;>
    · obtain ⟨r, hr, hcond⟩ := List.any_eq_true.mp h
      rw [Bool.and_eq_true] at hcond
      exact ⟨r, hr, of_decide_eq_true hcond.1⟩
  obtain ⟨o, hof, rfl⟩ := List.mem_map.mp hr
  have hd : daily ≠ [] := by
    intro he
    subst he
    simp [filteredObs] at hof
  have hf : filteredObs daily wanted ≠ [] := List.ne_nil_of_mem hof
  have hkmem : k ∈ tableKeys daily wanted freq :=
    mem_tableKeys.mpr ⟨_, hr, hrk⟩
  have hnodup : ((daily_to_period_station daily wanted freq).map (fun r => r.1)).Nodup := by
    rw [tbl_fst_eq hd hf]
    exact nodup_tableKeys daily wanted freq
  refine ⟨hnodup, ?_, ?_, ?_⟩
  · rw [tbl_fst_eq hd hf]
    exact List.count_eq_one_of_mem (nodup_tableKeys daily wanted freq) hkmem
  · intro habs v hv hsv
    rw [tblCell_eq hd hf hkmem hv]
    have hvs : bucketVals daily wanted freq k v = [] := by
      rw [← cellVal_vs]
      rw [List.filter_eq_nil_iff.mpr ?_]
      · rfl
      · intro r' hr' hcond
        rw [Bool.and_eq_true] at hcond
        have h1 : r'.1 = k := of_decide_eq_true hcond.1
        have h2 : r'.2.1 = v := of_decide_eq_true hcond.2
        have : groupHas daily wanted freq true k = true :=
          List.any_eq_true.mpr ⟨r', hr',
            by simp [h1, h2, hsv]⟩
        rw [habs] at this
        exact Bool.false_ne_true this
    unfold cellVal
    simp only [cellVal_vs]
    rw [if_pos hvs]
  · intro habs v hv hsv
    rw [tblCell_eq hd hf hkmem hv]
    have hvs : bucketVals daily wanted freq k v = [] := by
      rw [← cellVal_vs]
      rw [List.filter_eq_nil_iff.mpr ?_]
      · rfl
      · intro r' hr' hcond
        rw [Bool.and_eq_true] at hcond
        have h1 : r'.1 = k := of_decide_eq_true hcond.1
        have h2 : r'.2.1 = v := of_decide_eq_true hcond.2
        have : groupHas daily wanted freq false k = true :=
          List.any_eq_true.mpr ⟨r', hr',
            by simp [h1, h2, hsv]⟩
        rw [habs] at this
        exact Bool.false_ne_true this
    unfold cellVal
    simp only [cellVal_vs]
    rw [if_pos hvs]

/-- Witness for C7: a weekly bucket containing only a mean-group
observation (TAVG) while another bucket holds the sum-group (PRCP)
observation — the TAVG-only bucket appears once, with the PRCP column
empty. -/
theorem C7_one_row_per_period_witness :
    (groupHas [⟨⟨2024, 7, 3⟩, "PRCP", 1⟩, ⟨⟨2024, 7, 10⟩, "TAVG", 2⟩]
        ["PRCP", "TAVG"] "weekly" true (toDays ⟨2024, 7, 9⟩) = true ∨
     groupHas [⟨⟨2024, 7, 3⟩, "PRCP", 1⟩, ⟨⟨2024, 7, 10⟩, "TAVG", 2⟩]
        ["PRCP", "TAVG"] "weekly" false (toDays ⟨2024, 7, 9⟩) = true) ∧
    (((daily_to_period_station [⟨⟨2024, 7, 3⟩, "PRCP", 1⟩, ⟨⟨2024, 7, 10⟩, "TAVG", 2⟩]
        ["PRCP", "TAVG"] "weekly").map (fun r => r.1)).Nodup ∧
     ((daily_to_period_station [⟨⟨2024, 7, 3⟩, "PRCP", 1⟩, ⟨⟨2024, 7, 10⟩, "TAVG", 2⟩]
        ["PRCP", "TAVG"] "weekly").map (fun r => r.1)).count (toDays ⟨2024, 7, 9⟩) = 1 ∧
     (groupHas [⟨⟨2024, 7, 3⟩, "PRCP", 1⟩, ⟨⟨2024, 7, 10⟩, "TAVG", 2⟩]
        ["PRCP", "TAVG"] "weekly" true (toDays ⟨2024, 7, 9⟩) = false →
       ∀ v ∈ presentVars [⟨⟨2024, 7, 3⟩, "PRCP", 1⟩, ⟨⟨2024, 7, 10⟩, "TAVG", 2⟩]
          ["PRCP", "TAVG"], isSumVar v = true →
         tblCell (daily_to_period_station
            [⟨⟨2024, 7, 3⟩, "PRCP", 1⟩, ⟨⟨2024, 7, 10⟩, "TAVG", 2⟩]
            ["PRCP", "TAVG"] "weekly") (toDays ⟨2024, 7, 9⟩) v = some none) ∧
     (groupHas [⟨⟨2024, 7, 3⟩, "PRCP", 1⟩, ⟨⟨2024, 7, 10⟩, "TAVG", 2⟩]
        ["PRCP", "TAVG"] "weekly" false (toDays ⟨2024, 7, 9⟩) = false →
       ∀ v ∈ presentVars [⟨⟨2024, 7, 3⟩, "PRCP", 1⟩, ⟨⟨2024, 7, 10⟩, "TAVG", 2⟩]
          ["PRCP", "TAVG"], isSumVar v = false →
         tblCell (daily_to_period_station
            [⟨⟨2024, 7, 3⟩, "PRCP", 1⟩, ⟨⟨2024, 7, 10⟩, "TAVG", 2⟩]
            ["PRCP", "TAVG"] "weekly") (toDays ⟨2024, 7, 9⟩) v = some none)) :=
  ⟨Or.inr (by decide), C7_one_row_per_period _ _ _ _ (Or.inr (by decide))⟩

/-- C1: the weekly aggregator does NOT bucket to the Monday on/before the
observation date.  An observation dated Wednesday 2024-07-10 is bucketed
to 2024-07-09 — a Tuesday, not the Monday 2024-07-08 of its week — and an
observation dated exactly on Monday 2024-07-08 is bucketed to 2024-07-02
(the previous Tuesday), not to itself: pandas "W-MON" periods end, not
start, on Monday, contradicting the code's own "Monday-start weeks"
comment. -/
theorem C1_weekly_bucket_is_tuesday :
    ((daily_to_period_station [⟨⟨2024, 7, 10⟩, "PRCP", 1⟩] ["PRCP"] "weekly").map
        (fun r => r.1) = [toDays ⟨2024, 7, 9⟩]) ∧
    weekdayMon0 (toDays ⟨2024, 7, 10⟩) = 2 ∧
    weekdayMon0 (toDays ⟨2024, 7, 9⟩) = 1 ∧
    weekdayMon0 (toDays ⟨2024, 7, 8⟩) = 0 ∧
    toDays ⟨2024, 7, 9⟩ ≠ toDays ⟨2024, 7, 8⟩ ∧
    periodStart "weekly" ⟨2024, 7, 8⟩ = toDays ⟨2024, 7, 2⟩ ∧
    toDays ⟨2024, 7, 2⟩ ≠ toDays ⟨2024, 7, 8⟩ := by decide

/-- C9: an entirely empty daily input, or one containing no observations
of the requested variable codes, aggregates to the empty table rather
than raising. -/
theorem C9_empty_input (daily : List Obs) (wanted : List String) (freq : String)
    (h : daily = [] ∨ ∀ o ∈ daily, wanted.contains o.datatype = false) :
    daily_to_period_station daily wanted freq = [] := by
  rcases h with rfl | h
  · rfl
  · have hf : filteredObs daily wanted = [] := by
      unfold filteredObs
      refine List.filter_eq_nil_iff.mpr (fun o ho => ?_)
      simp only [h o ho]
      exact Bool.false_ne_true
    simp [daily_to_period_station, hf]

/-- Witness for C9 at a concrete input with no matching variables. -/
theorem C9_empty_input_witness :
    (([⟨⟨2024, 7, 10⟩, "TAVG", 3⟩] : List Obs) = [] ∨
      ∀ o ∈ ([⟨⟨2024, 7, 10⟩, "TAVG", 3⟩] : List Obs),
        (["PRCP"] : List String).contains o.datatype = false) ∧
    daily_to_period_station [⟨⟨2024, 7, 10⟩, "TAVG", 3⟩] ["PRCP"] "weekly" = [] :=
  ⟨Or.inr (by decide), C9_empty_input _ _ _ (Or.inr (by decide))⟩

/-- C8 counterexample: a region whose pipeline does not fully succeed (no
daily data is fetched, so no aggregation happens) still has its station
metadata and selected-station files written — those outputs are persisted
right after the catalog and selection steps, before fetch and aggregation
succeed. -/
theorem C8_counterexample :
    processRegion (some [st0]) [] false false ["PRCP"] "weekly" =
      [FWrite.stationsMeta, FWrite.selectedStation] ∧
    FWrite.aggregate ∉ processRegion (some [st0]) [] false false ["PRCP"] "weekly" := by
  decide

/-- C8 (amended): the region's period-aggregate file is written only
after the full pipeline has succeeded for that region (non-empty catalog,
a selected representative, non-empty daily data, non-empty aggregation),
and it is the final write of the region; the station-metadata and
selected-station files, however, are written earlier, right after the
catalog and selection stages. -/
theorem C8_aggregate_only_after_success (stationsRes : Option (List Station))
    (fetchRes : List (Option (List Obs))) (pu sr : Bool)
    (wanted : List String) (freq : String)
    (h : FWrite.aggregate ∈ processRegion stationsRes fetchRes pu sr wanted freq) :
    ∃ stations, stationsRes = some stations ∧ stations ≠ [] ∧
      (pick_representative_station stations pu).isSome = true ∧
      (fetchRes.filterMap id).flatten ≠ [] ∧
      daily_to_period_station ((fetchRes.filterMap id).flatten) wanted freq ≠ [] ∧
      (processRegion stationsRes fetchRes pu sr wanted freq).getLast? =
        some FWrite.aggregate := by
  cases stationsRes with
  | none => simp [processRegion] at h
  | some stations =>
    by_cases hs : stations = []
    · subst hs
      simp [processRegion] at h
    · simp only [processRegion] at h ⊢
      rw [if_neg hs] at h ⊢
      cases hpick : pick_representative_station stations pu with
      | none =>
        rw [hpick] at h
        simp at h
      | some sel =>
        rw [hpick] at h
        have hparts : FWrite.aggregate ∉
            (if sr = true then fetchRes.enum.filterMap
                (fun p => p.2.map (fun _ => FWrite.rawPart p.1))
              else []) := by
          intro hmem
          split at hmem
          · obtain ⟨p, _, heq⟩ := List.mem_filterMap.mp hmem
            cases hp2 : p.2 with
            | none => rw [hp2] at heq; simp at heq
            | some df => rw [hp2] at heq; simp at heq
          · simp at hmem
        by_cases hd : (fetchRes.filterMap id).flatten = []
        · simp only [List.mem_cons, List.mem_append, hd, reduceIte] at h
          rcases h with h | h | h | h
          · exact absurd h (by decide)
          · exact absurd h (by decide)
          · exact absurd h hparts
          · simp at h
        · by_cases ht : daily_to_period_station ((fetchRes.filterMap id).flatten)
              wanted freq = []
          · simp only [List.mem_cons, List.mem_append, hd, ht, reduceIte] at h
            rcases h with h | h | h | h
            · exact absurd h (by decide)
            · exact absurd h (by decide)
            · exact absurd h hparts
            · simp at h
          · refine ⟨stations, rfl, hs, by rw [hpick]; rfl, hd, ht, ?_⟩
            simp only [hd, ht, reduceIte]
            show (([FWrite.stationsMeta, FWrite.selectedStation] ++
              (if sr = true then fetchRes.enum.filterMap
                  (fun p => p.2.map (fun _ => FWrite.rawPart p.1))
                else [])) ++ [FWrite.aggregate]).getLast? = some FWrite.aggregate
            exact List.getLast?_concat _

/-- Witness for C8's amended theorem: a region run where every stage
succeeds — the aggregate file is written, last. -/
theorem C8_aggregate_only_after_success_witness :
    FWrite.aggregate ∈ processRegion (some [st0])
        [some [⟨⟨2024, 7, 10⟩, "PRCP", 1⟩]] false false ["PRCP"] "weekly" ∧
    ∃ stations, (some [st0] : Option (List Station)) = some stations ∧ stations ≠ [] ∧
      (pick_representative_station stations false).isSome = true ∧
      (([some [⟨⟨2024, 7, 10⟩, "PRCP", 1⟩]].filterMap
          (id : Option (List Obs) → Option (List Obs))).flatten ≠ []) ∧
      daily_to_period_station (([some [⟨⟨2024, 7, 10⟩, "PRCP", 1⟩]].filterMap
          (id : Option (List Obs) → Option (List Obs))).flatten) ["PRCP"] "weekly" ≠ [] ∧
      (processRegion (some [st0]) [some [⟨⟨2024, 7, 10⟩, "PRCP", 1⟩]]
          false false ["PRCP"] "weekly").getLast? = some FWrite.aggregate :=
  ⟨by decide, C8_aggregate_only_after_success _ _ false false _ _ (by decide)⟩

/-- Witness for C10 at a concrete one-station pool whose coverage is
undefined. -/
theorem C10_pick_total_witness :
    ([⟨"GHCND:USC00000001", none, none, none⟩] : List Station) ≠ [] ∧
    ∃ w, pick_representative_station [⟨"GHCND:USC00000001", none, none, none⟩] false = some w ∧
      w ∈ ([⟨"GHCND:USC00000001", none, none, none⟩] : List Station) ∧
      w.id ∈ ([⟨"GHCND:USC00000001", none, none, none⟩] : List Station).map Station.id :=
  ⟨by decide, C10_pick_total [⟨"GHCND:USC00000001", none, none, none⟩] false (by decide)⟩

